import Mathlib

/-!
Shallow embedding of `voler88/logging` (`logger.go`), a convenience wrapper
around Go's `log/slog`: a family of loggers sharing one mutable severity
threshold (`slog.LevelVar`), with setters by enum, verbosity counter, and
case-insensitive name, plus handler selection with a JSON fallback.

Mutable state: a `slog.LevelVar` is a heap-allocated cell accessed through a
pointer.  We model pointers as indices (`LevelVar.id`) into an explicit heap
(`Heap`), so "sharing the same `LevelVar`" is equality of indices and every
read/write goes through the heap.
-/

namespace Logging

/-- Go `type Level = slog.Level`: an integer severity.  `slog.Level` is an
`int` (higher = more important / less verbose). -/
abbrev Level := Int

/-- Value of `slog.LevelError` (8). -/
def LevelError : Level := 8

/-- Value of `slog.LevelWarn` (4). -/
def LevelWarn : Level := 4

/-- Value of `slog.LevelInfo` (0). -/
def LevelInfo : Level := 0

/-- Value of `slog.LevelDebug` (-4). -/
def LevelDebug : Level := -4

/-- A `*slog.LevelVar`: a pointer to a mutable level cell, modelled as an
index into the `Heap`. -/
structure LevelVar where
  id : Nat
  deriving DecidableEq

/-- The mutable store of all allocated `slog.LevelVar` cells.  `vals` gives
the current value of each cell, `next` the next fresh address. -/
structure Heap where
  vals : Nat → Level
  next : Nat

/-- Go `new(slog.LevelVar)`: allocates a fresh cell at the zero value.  The
zero `slog.LevelVar` holds level 0, i.e. `LevelInfo` (its `val` field is a
zero `atomic.Int64`). -/
def Heap.alloc (h : Heap) : LevelVar × Heap :=
  (⟨h.next⟩, ⟨fun i => if i = h.next then LevelInfo else h.vals i, h.next + 1⟩)

/-- Go `(*slog.LevelVar).Level()`: read the cell through the pointer. -/
def LevelVar.get (v : LevelVar) (h : Heap) : Level :=
  h.vals v.id

/-- Go `(*slog.LevelVar).Set(l)`: overwrite the cell through the pointer. -/
def LevelVar.set (v : LevelVar) (l : Level) (h : Heap) : Heap :=
  ⟨fun i => if i = v.id then l else h.vals i, h.next⟩

/-- Go `type HandlerType string`. -/
abbrev HandlerType := String

/-- Go constant `Console HandlerType = "console"`. -/
def Console : HandlerType := "console"

/-- Go constant `JSON HandlerType = "json"`. -/
def JSON : HandlerType := "json"

/-- Go constant `Text HandlerType = "text"`. -/
def Text : HandlerType := "text"

/-- Go `func (h HandlerType) String() string`. -/
def HandlerType.toStr (h : HandlerType) : String :=
  h

/-- An `io.Writer` output sink, opaque to this component: nothing is written
to it at construction time, the handlers merely capture it. -/
abbrev Writer := Nat

/-- Go `slog.HandlerOptions{Level: lvl}`: only the `Level` field is set by
this repository. -/
structure SlogHandlerOptions where
  Level : LevelVar
  deriving DecidableEq

/-- The three `slog.Handler` values `New` can construct, each capturing the
output writer and the handler options.  `console` is
`conslog.NewConsoleHandler`, `text` is `slog.NewTextHandler`, `json` is
`slog.NewJSONHandler`; their formatting behavior is external and not
modelled. -/
inductive SlogHandler where
  | console (out : Writer) (opts : SlogHandlerOptions)
  | text (out : Writer) (opts : SlogHandlerOptions)
  | json (out : Writer) (opts : SlogHandlerOptions)
  deriving DecidableEq

/-- An argument passed to `slog.Logger.With` (Go `...any`): opaque key/value
material forwarded verbatim, modelled as an uninterpreted token. -/
abbrev Arg := String

/-- Context bound onto a `slog.Logger` by `With` / `WithGroup`. -/
inductive ContextItem where
  | attrs (args : List Arg)
  | group (name : String)
  deriving DecidableEq

/-- A `*slog.Logger`: its handler plus the bound attribute/group context. -/
structure SlogLogger where
  handler : SlogHandler
  context : List ContextItem
  deriving DecidableEq

/-- Go `slog.New(h)`: a logger with the given handler and no bound
context. -/
def SlogLogger.new (h : SlogHandler) : SlogLogger :=
  ⟨h, []⟩

/-- Go `(*slog.Logger).With(args...)`: returns the receiver when `args` is
empty, otherwise a logger with the attributes bound. -/
def SlogLogger.With (l : SlogLogger) (args : List Arg) : SlogLogger :=
  if args.isEmpty then l else ⟨l.handler, l.context ++ [ContextItem.attrs args]⟩

/-- Go `(*slog.Logger).WithGroup(name)`: returns the receiver when `name` is
empty, otherwise a logger nesting subsequent attributes under `name`. -/
def SlogLogger.WithGroup (l : SlogLogger) (name : String) : SlogLogger :=
  if name = "" then l else ⟨l.handler, l.context ++ [ContextItem.group name]⟩

/-- Go `type Logger struct { *slog.Logger; Level *slog.LevelVar }`. -/
structure Logger where
  slogger : SlogLogger
  Level : LevelVar
  deriving DecidableEq

/-- Printability test used by Go `strconv.Quote`, embedded exactly for the
ASCII range: an ASCII character is printable iff it lies in 0x20–0x7E.  For
non-ASCII scalar values Go consults its Unicode printability tables, which
are not transcribed here: this embedding treats every non-ASCII scalar as
printable, and every theorem below about the rendered diagnostic therefore
restricts the quoted value to ASCII characters. -/
def goIsPrint (c : Char) : Bool :=
  if c.toNat < 0x80 then decide (0x20 ≤ c.toNat ∧ c.toNat ≤ 0x7E)
  else true

/-- Lowercase hexadecimal digit, as Go's `lowerhex` table
`0123456789abcdef`. -/
def lowerHexDigit (n : Nat) : Char :=
  if n < 10 then Char.ofNat (0x30 + n) else Char.ofNat (0x61 + (n - 10))

/-- Fixed-width lowercase hexadecimal rendering, most significant digit
first, as Go's `\u` / `\U` escapes produce. -/
def hexDigits : Nat → Nat → List Char
  | 0, _ => []
  | k + 1, n => hexDigits k (n / 16) ++ [lowerHexDigit (n % 16)]

/-- Go quoting of one character as done by `%q` (`strconv.Quote`, i.e.
`appendEscapedRune` with quote `"`): the quote and the backslash are
backslashed; printable characters pass through; `\a \b \f \n \r \t \v` cover
the named control characters; the remaining control characters and 0x7F
become `\xHH`; a non-printable scalar above that would become `\uHHHH` or
`\UHHHHHHHH` (unreachable here because `goIsPrint` treats all non-ASCII
scalars as printable; Lean characters are always valid scalars, so
`strconv`'s invalid-UTF-8 byte case cannot arise). -/
def goQuoteChar (c : Char) : String :=
  if c = '"' ∨ c = '\\' then String.mk ['\\', c]
  else if goIsPrint c then String.singleton c
  else if c = Char.ofNat 0x07 then "\\a"
  else if c = Char.ofNat 0x08 then "\\b"
  else if c = Char.ofNat 0x0C then "\\f"
  else if c = '\n' then "\\n"
  else if c = Char.ofNat 0x0D then "\\r"
  else if c = '\t' then "\\t"
  else if c = Char.ofNat 0x0B then "\\v"
  else if c.toNat < 0x20 ∨ c.toNat = 0x7F then
    String.mk (['\\', 'x'] ++ hexDigits 2 c.toNat)
  else if c.toNat < 0x10000 then
    String.mk (['\\', 'u'] ++ hexDigits 4 c.toNat)
  else
    String.mk (['\\', 'U'] ++ hexDigits 8 c.toNat)

/-- Quote a list of characters one by one, concatenating the results. -/
def goQuoteAux : List Char → String
  | [] => ""
  | c :: cs => goQuoteChar c ++ goQuoteAux cs

/-- Go `%q` applied to a string: the body quoted character by character and
wrapped in double quotes. -/
def goQuote (s : String) : String :=
  "\"" ++ goQuoteAux s.data ++ "\""

/-- The result of Go `New`: the returned `*Logger`, the heap after the
`slog.LevelVar` allocation, and every line written to the process's standard
error stream during construction. -/
structure NewResult where
  logger : Logger
  heap : Heap
  stderr : List String

/-- Go `func New(out io.Writer, handler HandlerType) *Logger`: allocates a
fresh `slog.LevelVar`, selects the handler by the `switch`, and in the
`default` branch writes the `fmt.Fprintf` diagnostic to standard error and
falls back to the JSON handler. -/
def New (h : Heap) (out : Writer) (handler : HandlerType) : NewResult :=
  let p := h.alloc
  let lvl := p.1
  let h1 := p.2
  let opts : SlogHandlerOptions := ⟨lvl⟩
  if handler = Console then
    ⟨⟨SlogLogger.new (SlogHandler.console out opts), lvl⟩, h1, []⟩
  else if handler = Text then
    ⟨⟨SlogLogger.new (SlogHandler.text out opts), lvl⟩, h1, []⟩
  else if handler = JSON then
    ⟨⟨SlogLogger.new (SlogHandler.json out opts), lvl⟩, h1, []⟩
  else
    ⟨⟨SlogLogger.new (SlogHandler.json out opts), lvl⟩, h1,
      ["warning: invalid handler type " ++ goQuote handler ++ ", falling back to JSON\n"]⟩

/-- Go `func (l *Logger) SetLevel(level Level)`: `l.Level.Set(level)`. -/
def Logger.SetLevel (l : Logger) (level : Logging.Level) (h : Heap) : Heap :=
  l.Level.set level h

/-- Go `func (l *Logger) SetLevelByCounter(i int)`: the `switch` staircase
followed by `l.SetLevel(lvl)`.  Go `int` is a 64-bit integer; only
comparisons are performed, so `Int` models every representable value
faithfully. -/
def Logger.SetLevelByCounter (l : Logger) (i : Int) (h : Heap) : Heap :=
  let lvl : Logging.Level :=
    if i ≥ 3 then LevelDebug
    else if i = 2 then LevelInfo
    else if i = 1 then LevelWarn
    else LevelError
  l.SetLevel lvl h

/-- Lowercasing of one character as done by Go `strings.ToLower` (Unicode
simple lowercase mapping), embedded for ASCII plus the only two code points
whose lowercase mapping lands in ASCII: U+0130 (dotted capital I, to `i`)
and U+212A (Kelvin sign, to `k`).  Every other non-ASCII character maps to a
non-ASCII character in Go, so the case comparisons below agree with Go on
all strings. -/
def charToLower (c : Char) : Char :=
  if c = Char.ofNat 0x130 then 'i'
  else if c = Char.ofNat 0x212A then 'k'
  else c.toLower

/-- Go `strings.ToLower`, character by character. -/
def stringsToLower (s : String) : String :=
  String.mk (s.data.map charToLower)

/-- The message of the error built by `fmt.Errorf` in `SetLevelByName`:
`invalid log level name %q: must be one of error, warn, info, debug`. -/
def levelNameError (name : String) : String :=
  "invalid log level name " ++ goQuote name ++ ": must be one of error, warn, info, debug"

/-- Go `func (l *Logger) SetLevelByName(name string) error`: the `switch` on
`strings.ToLower(name)`.  Returns the heap after the call and the returned
`error` (`none` for Go `nil`). -/
def Logger.SetLevelByName (l : Logger) (name : String) (h : Heap) : Heap × Option String :=
  let lower := stringsToLower name
  if lower = "error" then (l.SetLevel LevelError h, none)
  else if lower = "warn" ∨ lower = "warning" then (l.SetLevel LevelWarn h, none)
  else if lower = "info" then (l.SetLevel LevelInfo h, none)
  else if lower = "debug" then (l.SetLevel LevelDebug h, none)
  else (h, some (levelNameError name))

/-- Go `func (l *Logger) With(args ...any) *Logger`: delegates to
`slog.Logger.With` and reuses the same `Level` pointer. -/
def Logger.With (l : Logger) (args : List Arg) : Logger :=
  ⟨l.slogger.With args, l.Level⟩

/-- Go `func (l *Logger) WithGroup(name string) *Logger`: delegates to
`slog.Logger.WithGroup` and reuses the same `Level` pointer. -/
def Logger.WithGroup (l : Logger) (name : String) : Logger :=
  ⟨l.slogger.WithGroup name, l.Level⟩

/-- One derivation step on a `Logger`: a `With` call or a `WithGroup`
call. -/
inductive Deriv where
  | withArgs (args : List Arg)
  | withGroup (name : String)
  deriving DecidableEq

/-- Apply one derivation step. -/
def applyDeriv (l : Logger) : Deriv → Logger
  | .withArgs args => l.With args
  | .withGroup name => l.WithGroup name

/-- Apply a sequence of `With` / `WithGroup` derivations. -/
def deriveAll (l : Logger) (ds : List Deriv) : Logger :=
  ds.foldl applyDeriv l

/-- Modelled from the spec: the admission rule of the Emitter collaborator,
which is external to this repository (the `slog` handlers honoring
`HandlerOptions.Level`, whose `Enabled` contract admits a record whose level
is at least the configured minimum).  `levelEnabled t r` holds when a record
of severity `r` is admitted under threshold `t`. -/
def levelEnabled (threshold recordLevel : Logging.Level) : Bool :=
  decide (threshold ≤ recordLevel)

/-- The four severity constants, from most important (least verbose) to most
verbose. -/
def allLevels : List Logging.Level :=
  [LevelError, LevelWarn, LevelInfo, LevelDebug]

/-! Helper lemmas -/

/-- Reading a cell right after writing it yields the written value. -/
theorem get_set_same (v : LevelVar) (x : Logging.Level) (h : Heap) :
    v.get (v.set x h) = x := by
  simp [LevelVar.get, LevelVar.set]

/-- One `With` / `WithGroup` step keeps the same `Level` pointer. -/
theorem applyDeriv_Level (l : Logger) (d : Deriv) :
    (applyDeriv l d).Level = l.Level := by
  cases d <;> rfl

/-- Any sequence of `With` / `WithGroup` steps keeps the same `Level`
pointer. -/
theorem deriveAll_Level (l : Logger) (ds : List Deriv) :
    (deriveAll l ds).Level = l.Level := by
  induction ds generalizing l with
  | nil => rfl
  | cons d ds ih =>
    show (deriveAll (applyDeriv l d) ds).Level = l.Level
    rw [ih, applyDeriv_Level]

/-- Claim C1: every Logger derived via `With` and `WithGroup` carries the
very same `LevelVar` reference as its parent (never a copy), so a single
value is visible through the cell to every handle in the family and a
`SetLevel` through any handle is immediately visible through every other
handle derived from the same root. -/
theorem derived_loggers_share_level_cell
    (l : Logger) (d : Deriv) (ds ds1 ds2 : List Deriv) (h : Heap) (x : Logging.Level) :
    (applyDeriv l d).Level = l.Level ∧
    (deriveAll l ds).Level = l.Level ∧
    (deriveAll l ds1).Level.get ((deriveAll l ds2).SetLevel x h) = x ∧
    (deriveAll l ds1).Level.get h = (deriveAll l ds2).Level.get h := by
  refine ⟨applyDeriv_Level l d, deriveAll_Level l ds, ?_, ?_⟩
  · rw [Logger.SetLevel, deriveAll_Level, deriveAll_Level, get_set_same]
  · rw [deriveAll_Level, deriveAll_Level]

/-- Claim C2: `SetLevelByCounter` is total over all integers and implements
the fixed staircase: `i ≤ 0` sets Error, `i = 1` Warn, `i = 2` Info, and
`i ≥ 3` Debug; it never fails. -/
theorem setLevelByCounter_staircase (l : Logger) (i : Int) (h : Heap) :
    l.Level.get (l.SetLevelByCounter i h) =
      if i ≤ 0 then LevelError
      else if i = 1 then LevelWarn
      else if i = 2 then LevelInfo
      else LevelDebug := by
  simp only [Logger.SetLevelByCounter, Logger.SetLevel, get_set_same,
    LevelError, LevelWarn, LevelInfo, LevelDebug]
  split_ifs <;> first | rfl | omega

/-- Claim C6: for every severity `x` and every prior state of the cell,
`SetLevel x` overwrites the shared cell so that its value afterwards equals
`x`, unconditionally. -/
theorem setLevel_overwrites (l : Logger) (x : Logging.Level) (h : Heap) :
    l.Level.get (l.SetLevel x h) = x := by
  rw [Logger.SetLevel, get_set_same]

/-- Claim C7: the severity constants are ordered Error < Warn < Info < Debug
from least to most verbose (numerically the severity values decrease with
verbosity, so the chain reads Debug < Info < Warn < Error on the integer
values), a threshold admits exactly the records at least as important as it
(numerically `≥` the threshold), an Error-level record is admitted under
every one of the four thresholds, and a Debug-level record is admitted only
under the Debug threshold. -/
theorem severity_order_and_admission :
    (LevelDebug < LevelInfo ∧ LevelInfo < LevelWarn ∧ LevelWarn < LevelError) ∧
    (allLevels.all fun t => levelEnabled t LevelError) = true ∧
    (allLevels.all fun t => levelEnabled t LevelDebug == decide (t = LevelDebug)) = true ∧
    (allLevels.all fun t => allLevels.all fun r => levelEnabled t r == decide (t ≤ r)) = true := by
  decide

/-- Claim C8: `SetLevel` is idempotent — setting the same value twice leaves
the heap exactly as one call does, and admission behavior afterwards is
identical. -/
theorem setLevel_idempotent (l : Logger) (x : Logging.Level) (h : Heap) :
    l.SetLevel x (l.SetLevel x h) = l.SetLevel x h ∧
    (∀ r : Logging.Level,
      levelEnabled (l.Level.get (l.SetLevel x (l.SetLevel x h))) r =
        levelEnabled (l.Level.get (l.SetLevel x h)) r) := by
  have heq : l.SetLevel x (l.SetLevel x h) = l.SetLevel x h := by
    unfold Logger.SetLevel LevelVar.set
    congr 1
    funext i
    by_cases hi : i = l.Level.id <;> simp [hi]
  exact ⟨heq, fun r => by rw [heq]⟩

/-- Claim C3: `SetLevelByName` performs a case-insensitive lookup — a string
lowercasing to `error` sets the cell to Error and returns no error, `warn` or
`warning` to Warn, `info` to Info, `debug` to Debug; every other string
returns the error built from the offending string (via `%q`) and leaves the
cell unchanged. -/
theorem setLevelByName_lookup (l : Logger) (name : String) (h : Heap) :
    ((l.SetLevelByName name h).2 =
      if stringsToLower name = "error" ∨ stringsToLower name = "warn" ∨
          stringsToLower name = "warning" ∨ stringsToLower name = "info" ∨
          stringsToLower name = "debug"
        then none else some (levelNameError name)) ∧
    (l.Level.get (l.SetLevelByName name h).1 =
      if stringsToLower name = "error" then LevelError
      else if stringsToLower name = "warn" ∨ stringsToLower name = "warning" then LevelWarn
      else if stringsToLower name = "info" then LevelInfo
      else if stringsToLower name = "debug" then LevelDebug
      else l.Level.get h) := by
  unfold Logger.SetLevelByName
  by_cases h1 : stringsToLower name = "error"
  · simp [h1, Logger.SetLevel, get_set_same]
  · by_cases h2 : stringsToLower name = "warn"
    · simp [h1, h2, Logger.SetLevel, get_set_same]
    · by_cases h3 : stringsToLower name = "warning"
      · simp [h1, h2, h3, Logger.SetLevel, get_set_same]
      · by_cases h4 : stringsToLower name = "info"
        · simp [h1, h2, h3, h4, Logger.SetLevel, get_set_same]
        · by_cases h5 : stringsToLower name = "debug"
          · simp [h1, h2, h3, h4, h5, Logger.SetLevel, get_set_same]
          · simp [h1, h2, h3, h4, h5]

/-- Claim C4: `SetLevelByName` is atomic on failure — for every string not
recognized as a level name and every prior cell state, the call returns an
error to the caller and the whole heap (in particular the level cell) is
unchanged; the function is total, so there is no panic or termination. -/
theorem setLevelByName_failure_atomic (l : Logger) (name : String) (h : Heap)
    (hbad : stringsToLower name ≠ "error" ∧ stringsToLower name ≠ "warn" ∧
        stringsToLower name ≠ "warning" ∧ stringsToLower name ≠ "info" ∧
        stringsToLower name ≠ "debug") :
    (l.SetLevelByName name h).2 = some (levelNameError name) ∧
    (l.SetLevelByName name h).1 = h := by
  obtain ⟨h1, h2, h3, h4, h5⟩ := hbad
  unfold Logger.SetLevelByName
  simp [h1, h2, h3, h4, h5]

/-- Witness for `setLevelByName_failure_atomic` at the spec's example input
`"verbose"`. -/
theorem setLevelByName_failure_atomic_witness :
    (Logger.SetLevelByName ⟨⟨SlogHandler.json 0 ⟨⟨0⟩⟩, []⟩, ⟨0⟩⟩ "verbose"
        ⟨fun _ => LevelInfo, 1⟩).2 = some (levelNameError "verbose") ∧
    (Logger.SetLevelByName ⟨⟨SlogHandler.json 0 ⟨⟨0⟩⟩, []⟩, ⟨0⟩⟩ "verbose"
        ⟨fun _ => LevelInfo, 1⟩).1 = ⟨fun _ => LevelInfo, 1⟩ :=
  setLevelByName_failure_atomic _ "verbose" _ (by decide)

/-- Claim C10: for every output writer and every handler type (valid or
not), the Logger returned by `New` has its level cell initialized to Info
(the zero value of `slog.LevelVar`); before any setter is called the
threshold equals Info. -/
theorem new_initial_level_is_info (h : Heap) (out : Writer) (handler : HandlerType) :
    (New h out handler).logger.Level.get (New h out handler).heap = LevelInfo := by
  unfold New Heap.alloc
  split_ifs <;> simp [LevelVar.get]

end Logging
